import Mathlib

/-!
Shallow embedding of the Agentic-RAG pipeline core
(`src/agent/graph.py`, `src/agent/nodes.py`, `src/retrieval/vectorstore.py`,
`src/tools/tools.py`, `src/agents.py`).

Python strings are modelled as `List Char` where character-level operations
(slicing, `split`, `replace`, `strip`, `lower`) matter, and as Lean `String`
elsewhere.  External effects (LLM calls, the FAISS index, the agent executor,
the filesystem) are modelled as explicit oracle inputs: an `Except String α`
models a call that either returns a value or raises an exception whose
`str(e)` is the carried string.
-/

namespace AgenticRAG

/-! ### Python string primitives on `List Char` -/

/-- Whitespace characters recognised by Python `str.strip()` (ASCII range:
space, tab, newline, carriage return, vertical tab, form feed). -/
def pyIsSpace (c : Char) : Bool :=
  c = ' ' || c = '\t' || c = '\n' || c = '\r' ||
  c = Char.ofNat 11 || c = Char.ofNat 12

/-- Python `str.strip()`: drop whitespace from both ends. -/
def pyStrip (s : List Char) : List Char :=
  ((s.dropWhile pyIsSpace).reverse.dropWhile pyIsSpace).reverse

/-- Python `str.lower()` (ASCII case folding, which is all the grader needs). -/
def pyLower (s : List Char) : List Char :=
  s.map Char.toLower

/-- Index of the first occurrence of `sep` in `s` (Python `str.find`),
`none` when `sep` does not occur. -/
def firstIdx (sep : List Char) : List Char → Option Nat
  | [] => if sep = [] then some 0 else none
  | c :: rest =>
      if sep.isPrefixOf (c :: rest) then some 0
      else (firstIdx sep rest).map (· + 1)

/-- Python `sep in s` substring test. -/
def containsSub (sep s : List Char) : Bool :=
  (firstIdx sep s).isSome

theorem firstIdx_nil_of_ne (sep : List Char) (h : sep ≠ []) :
    firstIdx sep [] = none := by
  simp [firstIdx, h]

theorem firstIdx_some_bound (sep : List Char) (hsep : sep ≠ []) :
    ∀ (s : List Char) (i : Nat), firstIdx sep s = some i →
      i + sep.length ≤ s.length := by
  intro s
  induction s with
  | nil => intro i h; rw [firstIdx_nil_of_ne sep hsep] at h; cases h
  | cons c rest ih =>
      intro i h
      by_cases hp : sep.isPrefixOf (c :: rest)
      · simp [firstIdx, hp] at h
        subst h
        simpa using List.IsPrefix.length_le (List.isPrefixOf_iff_prefix.mp hp)
      · simp [firstIdx, hp] at h
        obtain ⟨j, hj, rfl⟩ := h
        have := ih j hj
        simp only [List.length_cons]
        omega

/-- Python `s.split(sep)` for a non-empty separator: repeatedly cut at the
leftmost occurrence.  (Python raises on an empty separator; that case is
never reached by the source, which only splits on fixed non-empty markers.) -/
def pySplit (sep : List Char) (s : List Char) : List (List Char) :=
  if hsep : sep = [] then [s]
  else
    match h : firstIdx sep s with
    | none => [s]
    | some i => s.take i :: pySplit sep (s.drop (i + sep.length))
termination_by s.length
decreasing_by
  have hb := firstIdx_some_bound sep hsep s i h
  have hpos : 0 < sep.length := List.length_pos.mpr hsep
  have hs : 0 < s.length := by omega
  simp only [List.length_drop]
  omega

/-- Python `s.replace(pat, repl)` (all occurrences, left to right):
equivalently `repl.join(s.split(pat))`. -/
def pyReplace (pat repl s : List Char) : List Char :=
  List.intercalate repl (pySplit pat s)

/-- The text of `s` strictly after the first occurrence of `sep`
(meaningful only when `sep` occurs in `s`). -/
def textAfterFirst (sep s : List Char) : List Char :=
  match firstIdx sep s with
  | none => s
  | some i => s.drop (i + sep.length)

/-! ### Vector store (`src/retrieval/vectorstore.py`)

A raw FAISS hit is a `(document, score)` pair; `search_similar_chunks`
reformats hits into `Chunk` records; `get_file_relevance_scores` groups the
retrieved chunks by source file, averages each file's scores and returns the
mapping sorted ascending by averaged score (a Python `dict` built by
`sorted(...)` preserves exactly that insertion order, modelled here as an
association list). -/

structure RawDoc where
  page_content : String
  source : String
deriving Repr, DecidableEq

structure Chunk where
  content : String
  source : String
  relevance_score : ℚ
deriving Repr, DecidableEq

/-- `os.path.basename`: the final path component. -/
def pyBasename (s : String) : String :=
  (s.splitOn "/").getLastD s

/-- `VectorStoreManager.search_similar_chunks`: reformat the raw
`similarity_search_with_score` hits.  The raw hits are the oracle input. -/
def search_similar_chunks (docs_and_scores : List (RawDoc × ℚ)) : List Chunk :=
  docs_and_scores.map (fun p =>
    { content := p.1.page_content
      source := pyBasename p.1.source
      relevance_score := p.2 })

/-- One step of the grouping loop in `get_file_relevance_scores`:
`file_scores[filename].append(score)` with first-insertion key order. -/
def addScore : List (String × List ℚ) → String → ℚ → List (String × List ℚ)
  | [], name, sc => [(name, [sc])]
  | (f, ss) :: rest, name, sc =>
      if f = name then (f, ss ++ [sc]) :: rest
      else (f, ss) :: addScore rest name sc

/-- The grouping loop of `get_file_relevance_scores`. -/
def groupScores (chunks : List Chunk) : List (String × List ℚ) :=
  chunks.foldl (fun acc c => addScore acc c.source c.relevance_score) []

/-- `VectorStoreManager.get_file_relevance_scores`: group the retrieved
chunks by source, average each group, sort ascending by average
(`sorted(..., key=lambda x: x[1])`). -/
def get_file_relevance_scores (chunks : List Chunk) : List (String × ℚ) :=
  ((groupScores chunks).map
      (fun p => (p.1, p.2.sum / (p.2.length : ℚ)))).mergeSort
    (fun a b => decide (a.2 ≤ b.2))

/-! ### Tools (`src/tools/tools.py`)

The filesystem is modelled as an association list from filename to the list
of lines `f.readlines()` would return (each line keeps its trailing newline,
as in Python).  `read_file_section` is total: every failure becomes a
textual error string, exactly as the source catches and formats it. -/

/-- Lookup of `os.path.exists` + `readlines` in the modelled filesystem. -/
def lookupFile : List (String × List String) → String → Option (List String)
  | [], _ => none
  | (name, lines) :: rest, f =>
      if name = f then some lines else lookupFile rest f

/-- `read_file_section(filename, start_line, num_lines)` from
`src/tools/tools.py`, with the filesystem and `FILES_DIRECTORY` explicit. -/
def read_file_section (fs : List (String × List String)) (dir : String)
    (filename : String) (start_line : Nat) (num_lines : Nat) : String :=
  match lookupFile fs filename with
  | none =>
      "Error: File '" ++ filename ++ "' not found in " ++ dir
  | some lines =>
      if lines.length ≤ start_line then
        "Error: start_line " ++ toString start_line ++
          " exceeds file length (" ++ toString lines.length ++ " lines)"
      else
        let end_line := min (start_line + num_lines) lines.length
        "--- " ++ filename ++ " (lines " ++ toString (start_line + 1) ++
          " to " ++ toString end_line ++ ") ---\n" ++
          String.join ((lines.drop start_line).take (end_line - start_line))

/-! ### Evidence construction (`evidence_gatherer_node`, `src/agent/nodes.py`)

The `AgentExecutor.invoke` response is the oracle input: its
`intermediate_steps` (chronological `(action, observation)` pairs) and its
final `output` string. -/

structure AgentAction where
  tool : String
  tool_input : String
deriving Repr, DecidableEq

structure AgentResponse where
  intermediate_steps : List (AgentAction × String)
  output : String
deriving Repr, DecidableEq

inductive EvidenceItem where
  | toolStep (action : String) (input : String) (observation : String)
  | finalOutput (content : String)
deriving Repr, DecidableEq

/-- `str(observation)[:500]`: keep the first 500 characters. -/
def truncate500 (s : String) : String :=
  ⟨s.data.take 500⟩

/-- The evidence list built by `evidence_gatherer_node`: one truncated
tool-step record per intermediate step, in order, then the final output. -/
def mkEvidence (steps : List (AgentAction × String)) (output : String) :
    List EvidenceItem :=
  steps.map (fun st => .toolStep st.1.tool st.1.tool_input (truncate500 st.2))
    ++ [.finalOutput output]

/-! ### Synthesis output splitting (`synthesis_analyzer_node`) -/

def rMarker : List Char := "**REASONING:**".data

def aMarker : List Char := "**ANSWER:**".data

def directMsg : List Char :=
  "Direct synthesis without explicit reasoning trace".data

/-- The reasoning/answer split at the end of `synthesis_analyzer_node`:
if both markers occur, `parts = output.split("**ANSWER:**")`,
`reasoning = parts[0].replace("**REASONING:**", "").strip()`,
`answer = parts[1].strip()`; otherwise the fixed message and the raw
output. -/
def synthSplitL (out : List Char) : List Char × List Char :=
  if containsSub rMarker out && containsSub aMarker out then
    let parts := pySplit aMarker out
    (pyStrip (pyReplace rMarker [] (parts.headD [])),
     pyStrip ((parts.drop 1).headD []))
  else
    (directMsg, out)

/-- `synthSplitL` lifted to `String` for the graph state. -/
def synthSplit (out : String) : String × String :=
  (⟨(synthSplitL out.data).1⟩, ⟨(synthSplitL out.data).2⟩)

/-! ### Graph state and nodes (`src/agent/state.py`, `src/agent/nodes.py`)

Each node is a function from the current state (plus the oracle outcome of
its external calls) to a partial state update, exactly as a LangGraph node
returns a dict of the keys it sets.  `Except.error e` models the node's
`try`/`except` catching an exception whose `str(e)` is `e`. -/

structure QueryAnalysis where
  information_needed : List String
  time_periods : List String
  metrics_requested : List String
  inference_required : Bool
  search_strategy : String
deriving Repr, DecidableEq

structure GraphState where
  original_query : String
  query_analysis : Option QueryAnalysis
  file_scores : List (String × ℚ)
  evidence : List EvidenceItem
  reasoning_trace : String
  final_answer : String
  error : String
deriving Repr, DecidableEq

/-- A partial state update as returned by one node (the dict of keys the
node sets; `none` = key absent from the returned dict). -/
structure StateUpdate where
  query_analysis : Option QueryAnalysis := none
  file_scores : Option (List (String × ℚ)) := none
  evidence : Option (List EvidenceItem) := none
  reasoning_trace : Option String := none
  final_answer : Option String := none
  error : Option String := none
deriving Repr, DecidableEq

/-- LangGraph merges the returned dict into the shared state. -/
def applyUpdate (s : GraphState) (u : StateUpdate) : GraphState :=
  { original_query := s.original_query
    query_analysis :=
      match u.query_analysis with
      | some a => some a
      | none => s.query_analysis
    file_scores := u.file_scores.getD s.file_scores
    evidence := u.evidence.getD s.evidence
    reasoning_trace := u.reasoning_trace.getD s.reasoning_trace
    final_answer := u.final_answer.getD s.final_answer
    error := u.error.getD s.error }

/-- Whether a node's returned update sets the `error` key. -/
def setsError (u : StateUpdate) : Bool :=
  u.error.isSome

/-- NODE 1, `query_analyzer_node`: the oracle is the parsed JSON analysis or
the caught exception. -/
def query_analyzer_node (o : Except String QueryAnalysis) (_s : GraphState) :
    StateUpdate :=
  match o with
  | .ok a => { query_analysis := some a }
  | .error e => { error := some ("Query analysis failed: " ++ e) }

/-- NODE 2, `retrieval_planner_node`: the oracle is the raw similarity hits
(or the caught exception); on success the node stores
`get_file_relevance_scores` of them. -/
def retrieval_planner_node (o : Except String (List (RawDoc × ℚ)))
    (_s : GraphState) : StateUpdate :=
  match o with
  | .ok hits =>
      { file_scores := some (get_file_relevance_scores
          (search_similar_chunks hits)) }
  | .error e => { error := some ("File relevance scoring failed: " ++ e) }

/-- NODE 3, `evidence_gatherer_node`: the oracle is the agent executor's
response (or the caught exception). -/
def evidence_gatherer_node (o : Except String AgentResponse)
    (_s : GraphState) : StateUpdate :=
  match o with
  | .ok r => { evidence := some (mkEvidence r.intermediate_steps r.output) }
  | .error e => { error := some ("Evidence gathering failed: " ++ e) }

/-- NODE 4, `synthesis_analyzer_node`: the oracle is the synthesis LLM's
output string (or the caught exception). -/
def synthesis_analyzer_node (o : Except String String) (_s : GraphState) :
    StateUpdate :=
  match o with
  | .ok out =>
      { reasoning_trace := some (synthSplit out).1
        final_answer := some (synthSplit out).2 }
  | .error e => { error := some ("Synthesis failed: " ++ e) }

/-- `should_continue` from `src/agent/graph.py`: Python truthiness of
`state.get("error")` on a string-valued key is non-emptiness. -/
def should_continue (s : GraphState) : String :=
  if s.error ≠ "" then "error" else "continue"

/-- The compiled 4-node workflow of `src/agent/graph.py`: linear order
`query_analyzer → retrieval_planner → evidence_gatherer →
synthesis_analyzer`, with a conditional edge after each of the first three
nodes routing to `END` when `should_continue` returns `"error"`. -/
def runGraph (o1 : Except String QueryAnalysis)
    (o2 : Except String (List (RawDoc × ℚ)))
    (o3 : Except String AgentResponse)
    (o4 : Except String String) (s0 : GraphState) : GraphState :=
  let s1 := applyUpdate s0 (query_analyzer_node o1 s0)
  if should_continue s1 = "error" then s1 else
  let s2 := applyUpdate s1 (retrieval_planner_node o2 s1)
  if should_continue s2 = "error" then s2 else
  let s3 := applyUpdate s2 (evidence_gatherer_node o3 s2)
  if should_continue s3 = "error" then s3 else
  applyUpdate s3 (synthesis_analyzer_node o4 s3)

/-- The initial state built by `run_query` in `src/main.py`. -/
def initState (q : String) : GraphState :=
  { original_query := q
    query_analysis := none
    file_scores := []
    evidence := []
    reasoning_trace := ""
    final_answer := ""
    error := "" }

/-! ### Supervisor and self-correcting agent (`src/agents.py`) -/

/-- The sanitization in `supervisor_node`:
`agent_to_run.strip().replace("'", '').replace('"', '').replace(chr(96), '')`
(strip first, then remove apostrophes, double quotes and backticks). -/
def sanitizeKey (s : List Char) : List Char :=
  pyReplace [Char.ofNat 96] []
    (pyReplace [Char.ofNat 34] []
      (pyReplace [Char.ofNat 39] [] (pyStrip s)))

/-- `supervisor_node`: stores the sanitized LLM choice under
`agent_to_run` (the returned dict has only that key). -/
def supervisor_node (llm_choice : List Char) : List Char :=
  sanitizeKey llm_choice

/-- The closed set of agent personas wired in `src/agents.py`
(`financial_agent` … `general_agent`). -/
def personaSet : List (List Char) :=
  ["financial".data, "technical".data, "risk".data,
   "project_management".data, "feedback".data, "performance".data,
   "general".data]

/-- Modelled from the spec: the routing step of the supervisor graph is not
under `src/` (only `supervisor_node` and the persona nodes are); per the
spec, the sanitized identifier is used as a lookup key into the fixed
closed persona set, and an unrecognized identifier is a routing failure
(`none`), never a silent default. -/
def routeAgent (key : List Char) : Option (List Char) :=
  if key ∈ personaSet then some key else none

/-- One agent executor response per attempt: the context graded is
`"\n".join(str(step[1]) for step in intermediate_steps)`. -/
def contextOf (r : AgentResponse) : String :=
  String.intercalate "\n" (r.intermediate_steps.map (fun st => st.2))

/-- `grade.lower().strip() == 'yes'` from `agent_node`. -/
def gradeIsYes (g : List Char) : Bool :=
  pyStrip (pyLower g) = "yes".data

/-- The sentinel returned when every attempt fails. -/
def lowConfidenceSentinel : String :=
  "Could not find a confident answer after 5 attempts."

/-- `max_attempts = 5` in `agent_node`. -/
def maxAttempts : Nat := 5

/-- The retry loop body of `agent_node` in `src/agents.py`.  `ex n` is the
executor response of the run made at `attempts = n`, `gr n` the grader
output for that run.  Returns the answer delivered through the `results`
channel together with the number of reasoning-loop runs performed.
`rem` is `max_attempts - attempts`, the remaining loop iterations. -/
def agent_loop (ex : Nat → AgentResponse) (gr : Nat → List Char) :
    Nat → Nat → String × Nat
  | _, 0 => (lowConfidenceSentinel, 0)
  | attempts, rem + 1 =>
      let response := ex attempts
      if contextOf response = "" then
        let (a, n) := agent_loop ex gr (attempts + 1) rem
        (a, n + 1)
      else if gradeIsYes (gr attempts) then
        (response.output, 1)
      else
        let (a, n) := agent_loop ex gr (attempts + 1) rem
        (a, n + 1)

/-- The state update returned by `agent_node`: always through `results`,
with an `error` key the node never sets. -/
structure AgentNodeUpdate where
  results : List (String × String)
  error : Option String
deriving Repr, DecidableEq

/-- `agent_node` from `src/agents.py`: run the retry loop from
`attempts = 0` with budget `max_attempts` and deliver the answer under the
`agent_to_run` key; the second component counts reasoning-loop runs. -/
def agent_node (ex : Nat → AgentResponse) (gr : Nat → List Char)
    (agent_to_run : String) : AgentNodeUpdate × Nat :=
  let (answer, runs) := agent_loop ex gr 0 maxAttempts
  ({ results := [(agent_to_run, answer)], error := none }, runs)

/-! ### Auxiliary definitions used by the verification -/

/-- First-match association lookup, reading the grouped score lists the way
a Python `dict` indexes them. -/
def lookupScores : List (String × List ℚ) → String → List ℚ
  | [], _ => []
  | (g, ss) :: rest, f => if g = f then ss else lookupScores rest f

/-- The state after node 1, mirroring the first `let` of `runGraph`. -/
def stateAfter1 (q : String) (o1 : Except String QueryAnalysis) : GraphState :=
  applyUpdate (initState q) (query_analyzer_node o1 (initState q))

/-- The state after node 2, mirroring the second `let` of `runGraph`. -/
def stateAfter2 (q : String) (o1 : Except String QueryAnalysis)
    (o2 : Except String (List (RawDoc × ℚ))) : GraphState :=
  applyUpdate (stateAfter1 q o1) (retrieval_planner_node o2 (stateAfter1 q o1))

/-- The state after node 3, mirroring the third `let` of `runGraph`. -/
def stateAfter3 (q : String) (o1 : Except String QueryAnalysis)
    (o2 : Except String (List (RawDoc × ℚ)))
    (o3 : Except String AgentResponse) : GraphState :=
  applyUpdate (stateAfter2 q o1 o2)
    (evidence_gatherer_node o3 (stateAfter2 q o1 o2))

/-- The reasoning/answer split as the spec describes it, amended at the
answer clause: the answer is the text strictly between the first
`**ANSWER:**` marker and the next occurrence of that marker (to the end of
the output when there is no further occurrence), trimmed; the reasoning is
the text before the first `**ANSWER:**` with the `**REASONING:**` marker
occurrences removed, trimmed. -/
def specSynthSplit (out : List Char) : List Char × List Char :=
  if containsSub rMarker out && containsSub aMarker out then
    match firstIdx aMarker out with
    | none => (directMsg, out)
    | some i =>
        let rest := out.drop (i + aMarker.length)
        let seg :=
          match firstIdx aMarker rest with
          | none => rest
          | some j => rest.take j
        (pyStrip (pyReplace rMarker [] (out.take i)), pyStrip seg)
  else (directMsg, out)

/-! ### General lemmas -/

theorem pySplit_of_none {sep s : List Char} (hsep : sep ≠ [])
    (h : firstIdx sep s = none) : pySplit sep s = [s] := by
  rw [pySplit]
  simp only [hsep, dite_false]
  split
  · rfl
  · rename_i j heq; rw [h] at heq; cases heq

theorem pySplit_of_some {sep s : List Char} {i : Nat} (hsep : sep ≠ [])
    (h : firstIdx sep s = some i) :
    pySplit sep s = s.take i :: pySplit sep (s.drop (i + sep.length)) := by
  rw [pySplit]
  simp only [hsep, dite_false]
  split
  · rename_i heq; rw [h] at heq; cases heq
  · rename_i j heq; rw [h] at heq; cases heq; rfl

/-! ### C8: empty retrieval yields an empty mapping -/

/-- C8: for every query for which the similarity search yields zero chunks
(including the empty-index case), `get_file_relevance_scores` returns an
empty mapping instead of raising an error. -/
theorem c8_empty_retrieval_empty_mapping :
    search_similar_chunks [] = [] ∧
    get_file_relevance_scores (search_similar_chunks []) = [] := by
  refine ⟨rfl, ?_⟩
  simp [search_similar_chunks, get_file_relevance_scores, groupScores]

/-! ### C7: read_section error behaviour -/

/-- C7: `read_file_section` answers a missing document and an out-of-range
`start_line` with textual error strings (the out-of-range message carrying
the document's actual line count) instead of propagating a fault; the
embedding is a total function into `String`, so no exception can escape. -/
theorem c7_read_section_errors (fs : List (String × List String))
    (dir filename : String) (start_line num_lines : Nat) :
    (lookupFile fs filename = none →
      read_file_section fs dir filename start_line num_lines =
        "Error: File '" ++ filename ++ "' not found in " ++ dir) ∧
    (∀ lines, lookupFile fs filename = some lines →
      lines.length ≤ start_line →
      read_file_section fs dir filename start_line num_lines =
        "Error: start_line " ++ toString start_line ++
          " exceeds file length (" ++ toString lines.length ++ " lines)" ∧
      ∃ before after,
        read_file_section fs dir filename start_line num_lines =
          before ++ toString lines.length ++ after) := by
  constructor
  · intro h
    simp [read_file_section, h]
  · intro lines hfound hrange
    have hmsg : read_file_section fs dir filename start_line num_lines =
        "Error: start_line " ++ toString start_line ++
          " exceeds file length (" ++ toString lines.length ++ " lines)" := by
      simp [read_file_section, hfound, hrange]
    refine ⟨hmsg, "Error: start_line " ++ toString start_line ++
      " exceeds file length (", " lines)", ?_⟩
    rw [hmsg]

/-- C7 witness: a concrete two-file filesystem; reading an unknown file and
reading past the end of a known file both yield the textual errors. -/
theorem c7_read_section_errors_witness :
    (read_file_section [("a.txt", ["one\n", "two\n"])] "files_to_work_with"
        "missing.txt" 0 50 =
      "Error: File '" ++ "missing.txt" ++ "' not found in " ++
        "files_to_work_with") ∧
    (read_file_section [("a.txt", ["one\n", "two\n"])] "files_to_work_with"
        "a.txt" 7 50 =
      "Error: start_line " ++ toString 7 ++ " exceeds file length (" ++
        toString ([("a.txt", ["one\n", "two\n"])].head!.2.length) ++
        " lines)") := by
  constructor
  · exact (c7_read_section_errors [("a.txt", ["one\n", "two\n"])]
      "files_to_work_with" "missing.txt" 0 50).1 (by decide)
  · exact ((c7_read_section_errors [("a.txt", ["one\n", "two\n"])]
      "files_to_work_with" "a.txt" 7 50).2 ["one\n", "two\n"] (by decide)
      (by decide)).1

/-! ### C6: evidence construction -/

/-- C6: the evidence built by `evidence_gatherer_node` has one tool-step
record per intermediate step, in chronological order, each observation
truncated to its first 500 characters (shorter observations unchanged,
longer ones cut to exactly 500, always a prefix), and the final-output
record is always the last element. -/
theorem c6_evidence_construction (steps : List (AgentAction × String))
    (output : String) :
    (mkEvidence steps output).length = steps.length + 1 ∧
    (mkEvidence steps output).getLast? =
      some (EvidenceItem.finalOutput output) ∧
    (∀ i (hi : i < steps.length),
      (mkEvidence steps output)[i]? =
        some (EvidenceItem.toolStep (steps.get ⟨i, hi⟩).1.tool
          (steps.get ⟨i, hi⟩).1.tool_input
          (truncate500 (steps.get ⟨i, hi⟩).2))) ∧
    (∀ s : String,
      (truncate500 s).data.isPrefixOf s.data = true ∧
      (s.length ≤ 500 → truncate500 s = s) ∧
      (500 ≤ s.length → (truncate500 s).length = 500)) := by
  refine ⟨?_, ?_, ?_, ?_⟩
  · simp [mkEvidence]
  · simp [mkEvidence]
  · intro i hi
    have hlen : i < (steps.map (fun st =>
        EvidenceItem.toolStep st.1.tool st.1.tool_input
          (truncate500 st.2))).length := by
      simpa using hi
    rw [mkEvidence, List.getElem?_append_left hlen]
    simp [List.getElem?_map, List.getElem?_eq_getElem hi]
  · intro s
    refine ⟨?_, ?_, ?_⟩
    · exact List.isPrefixOf_iff_prefix.mpr (List.take_prefix 500 s.data)
    · intro hle
      cases s with
      | mk data =>
          have hle' : data.length ≤ 500 := hle
          simp only [truncate500]
          exact congrArg String.mk (List.take_of_length_le hle')
    · intro hge
      have hge' : 500 ≤ s.data.length := hge
      have : (truncate500 s).data.length = 500 := by
        simp only [truncate500, List.length_take]
        omega
      exact this

/-- C6 witness: one intermediate step with a short observation and a final
output; the evidence list is the tool-step record followed by the final
record, and the short observation is kept unchanged. -/
theorem c6_evidence_construction_witness :
    (mkEvidence [(⟨"vector_search_chunks", "budget"⟩, "obs")] "done").length
        = 2 ∧
    (mkEvidence [(⟨"vector_search_chunks", "budget"⟩, "obs")]
        "done").getLast? = some (EvidenceItem.finalOutput "done") ∧
    (mkEvidence [(⟨"vector_search_chunks", "budget"⟩, "obs")] "done")[0]? =
      some (EvidenceItem.toolStep "vector_search_chunks" "budget"
        (truncate500 "obs")) ∧
    truncate500 "obs" = "obs" := by
  have h := c6_evidence_construction
    [(⟨"vector_search_chunks", "budget"⟩, "obs")] "done"
  exact ⟨h.1, h.2.1, h.2.2.1 0 (by decide), (h.2.2.2 "obs").2.1 (by decide)⟩

/-! ### C4 / C5: the self-correcting agent loop -/

theorem agent_loop_all_fail (ex : Nat → AgentResponse) (gr : Nat → List Char)
    (h : ∀ n, contextOf (ex n) = "" ∨ gradeIsYes (gr n) = false) :
    ∀ rem attempts, agent_loop ex gr attempts rem =
      (lowConfidenceSentinel, rem) := by
  intro rem
  induction rem with
  | zero => intro attempts; rfl
  | succ rem ih =>
      intro attempts
      rw [agent_loop]
      rcases h attempts with hc | hg
      · simp [hc, ih]
      · by_cases hctx : contextOf (ex attempts) = ""
        · simp [hctx, ih]
        · simp [hctx, hg, ih]

/-- C4: if on every attempt either the gathered context is empty or the
grader does not answer the literal "yes", `agent_node` performs exactly
`maxAttempts = 5` reasoning-loop runs and then returns the fixed
low-confidence sentinel through the `results` channel, with the `error`
field never set. -/
theorem c4_retry_bound_sentinel (ex : Nat → AgentResponse)
    (gr : Nat → List Char) (key : String)
    (h : ∀ n, contextOf (ex n) = "" ∨ gradeIsYes (gr n) = false) :
    agent_node ex gr key =
      ({ results := [(key, lowConfidenceSentinel)], error := none }, 5) := by
  rw [agent_node, agent_loop_all_fail ex gr h maxAttempts 0]
  rfl

/-- C4 witness: an executor that never finds any tool output (empty
context on every attempt) and an always-"no" grader yield the sentinel
after exactly 5 runs, without an error. -/
theorem c4_retry_bound_sentinel_witness :
    agent_node (fun _ => ⟨[], "draft"⟩) (fun _ => "no".data) "financial" =
      ({ results := [("financial", lowConfidenceSentinel)], error := none },
        5) := by
  exact c4_retry_bound_sentinel (fun _ => ⟨[], "draft"⟩)
    (fun _ => "no".data) "financial" (fun _ => Or.inl rfl)

theorem agent_loop_first_valid (ex : Nat → AgentResponse)
    (gr : Nat → List Char) :
    ∀ i attempts rem, i < rem →
      (∀ m, m < i → contextOf (ex (attempts + m)) ≠ "" ∧
        gradeIsYes (gr (attempts + m)) = false) →
      contextOf (ex (attempts + i)) ≠ "" →
      gradeIsYes (gr (attempts + i)) = true →
      agent_loop ex gr attempts rem = ((ex (attempts + i)).output, i + 1) := by
  intro i
  induction i with
  | zero =>
      intro attempts rem hrem _hprev hctx hyes
      obtain ⟨rem', rfl⟩ : ∃ rem', rem = rem' + 1 :=
        ⟨rem - 1, by omega⟩
      rw [agent_loop]
      simp only [Nat.add_zero] at hctx hyes
      simp [hctx, hyes]
  | succ i ih =>
      intro attempts rem hrem hprev hctx hyes
      obtain ⟨rem', rfl⟩ : ∃ rem', rem = rem' + 1 :=
        ⟨rem - 1, by omega⟩
      rw [agent_loop]
      have h0 := hprev 0 (by omega)
      simp only [Nat.add_zero] at h0
      have hrec := ih (attempts + 1) rem' (by omega)
        (fun m hm => by
          have := hprev (m + 1) (by omega)
          simpa [Nat.add_assoc, Nat.add_comm 1 m] using this)
        (by simpa [Nat.add_assoc, Nat.add_comm 1 i] using hctx)
        (by simpa [Nat.add_assoc, Nat.add_comm 1 i] using hyes)
      simp only [h0.1, if_neg, h0.2, if_false, hrec]
      simp [Nat.add_assoc, Nat.add_comm 1 i]

/-- C5: the grader verdict is VALID exactly when its output, lowercased and
trimmed, is the literal "yes"; if attempts `0..i-1` are graded INVALID on
non-empty context and attempt `i` (0-indexed, so the `(i+1)`-th attempt)
is graded VALID, `agent_node` performs exactly `i + 1` reasoning-loop runs
and returns attempt `i`'s preliminary answer through `results`. -/
theorem c5_valid_early_exit (ex : Nat → AgentResponse)
    (gr : Nat → List Char) (key : String) (i : Nat) (hi : i < maxAttempts)
    (hprev : ∀ m, m < i → contextOf (ex m) ≠ "" ∧
      pyStrip (pyLower (gr m)) ≠ "yes".data)
    (hctx : contextOf (ex i) ≠ "")
    (hyes : pyStrip (pyLower (gr i)) = "yes".data) :
    agent_node ex gr key =
      ({ results := [(key, (ex i).output)], error := none }, i + 1) := by
  have hloop := agent_loop_first_valid ex gr i 0 maxAttempts hi
    (fun m hm => by
      constructor
      · simpa using (hprev m hm).1
      · simp only [Nat.zero_add]
        simp [gradeIsYes, (hprev m hm).2])
    (by simpa using hctx)
    (by simp only [Nat.zero_add]; simp [gradeIsYes, hyes])
  rw [agent_node, hloop]
  simp

/-- C5 witness: the grader rejects attempt 1 and accepts attempt 2 with
" YES " (case-insensitive, trimmed); exactly 2 reasoning-loop runs happen
and attempt 2's answer is returned. -/
theorem c5_valid_early_exit_witness :
    agent_node
      (fun n => if n = 0 then ⟨[(⟨"t", "q"⟩, "obs0")], "ans0"⟩
                else ⟨[(⟨"t", "q"⟩, "obs1")], "ans1"⟩)
      (fun n => if n = 0 then "no".data else " YES ".data)
      "financial" =
      ({ results := [("financial", "ans1")], error := none }, 2) := by
  exact c5_valid_early_exit
    (fun n => if n = 0 then ⟨[(⟨"t", "q"⟩, "obs0")], "ans0"⟩
              else ⟨[(⟨"t", "q"⟩, "obs1")], "ans1"⟩)
    (fun n => if n = 0 then "no".data else " YES ".data)
    "financial" 1 (by decide)
    (fun m hm => by
      interval_cases m
      exact ⟨by decide, by decide⟩)
    (by decide) (by decide)

/-! ### Scenario lemmas for the 4-stage graph -/

theorem str_append_ne_nil {a : String} (b : String) (h : a.data ≠ []) :
    a ++ b ≠ "" := by
  intro hab
  apply h
  have hd := congrArg String.data hab
  rw [String.data_append] at hd
  exact (List.append_eq_nil.mp hd).1

theorem gfrs_nil : get_file_relevance_scores [] = [] := by
  simp [get_file_relevance_scores, groupScores]

theorem runGraph_err1 (q e : String)
    (o2 : Except String (List (RawDoc × ℚ))) (o3 : Except String AgentResponse)
    (o4 : Except String String) :
    runGraph (.error e) o2 o3 o4 (initState q) =
      { initState q with error := "Query analysis failed: " ++ e } := by
  have herr : ("Query analysis failed: " ++ e) ≠ "" :=
    str_append_ne_nil e (by decide)
  simp [runGraph, query_analyzer_node, applyUpdate, should_continue, herr,
    initState]

theorem runGraph_err2 (q : String) (a : QueryAnalysis) (e : String)
    (o3 : Except String AgentResponse) (o4 : Except String String) :
    runGraph (.ok a) (.error e) o3 o4 (initState q) =
      { initState q with
        query_analysis := some a
        error := "File relevance scoring failed: " ++ e } := by
  have herr : ("File relevance scoring failed: " ++ e) ≠ "" :=
    str_append_ne_nil e (by decide)
  simp [runGraph, query_analyzer_node, retrieval_planner_node, applyUpdate,
    should_continue, herr, initState]

theorem runGraph_err3 (q : String) (a : QueryAnalysis)
    (hits : List (RawDoc × ℚ)) (e : String) (o4 : Except String String) :
    runGraph (.ok a) (.ok hits) (.error e) o4 (initState q) =
      { initState q with
        query_analysis := some a
        file_scores := get_file_relevance_scores (search_similar_chunks hits)
        error := "Evidence gathering failed: " ++ e } := by
  have herr : ("Evidence gathering failed: " ++ e) ≠ "" :=
    str_append_ne_nil e (by decide)
  simp [runGraph, query_analyzer_node, retrieval_planner_node,
    evidence_gatherer_node, applyUpdate, should_continue, herr, initState]

theorem runGraph_err4 (q : String) (a : QueryAnalysis)
    (hits : List (RawDoc × ℚ)) (r : AgentResponse) (e : String) :
    runGraph (.ok a) (.ok hits) (.ok r) (.error e) (initState q) =
      { initState q with
        query_analysis := some a
        file_scores := get_file_relevance_scores (search_similar_chunks hits)
        evidence := mkEvidence r.intermediate_steps r.output
        error := "Synthesis failed: " ++ e } := by
  simp [runGraph, query_analyzer_node, retrieval_planner_node,
    evidence_gatherer_node, synthesis_analyzer_node, applyUpdate,
    should_continue, initState]

theorem runGraph_ok (q : String) (a : QueryAnalysis)
    (hits : List (RawDoc × ℚ)) (r : AgentResponse) (out : String) :
    runGraph (.ok a) (.ok hits) (.ok r) (.ok out) (initState q) =
      { initState q with
        query_analysis := some a
        file_scores := get_file_relevance_scores (search_similar_chunks hits)
        evidence := mkEvidence r.intermediate_steps r.output
        reasoning_trace := (synthSplit out).1
        final_answer := (synthSplit out).2 } := by
  simp [runGraph, query_analyzer_node, retrieval_planner_node,
    evidence_gatherer_node, synthesis_analyzer_node, applyUpdate,
    should_continue, initState]

/-! ### C1: fail-fast short-circuit of the 4-stage pipeline -/

/-- C1: whenever stage `k` returns a state update that sets the `error`
field, the terminal state does not depend on the oracles of any later
stage (those stages never execute), and every field a later stage would
have produced (`file_scores`, `evidence`, `reasoning_trace`,
`final_answer`, as applicable) keeps its initial default value. -/
theorem c1_short_circuit (q : String) (o1 : Except String QueryAnalysis)
    (o2 o2' : Except String (List (RawDoc × ℚ)))
    (o3 o3' : Except String AgentResponse)
    (o4 o4' : Except String String) :
    (setsError (query_analyzer_node o1 (initState q)) = true →
      runGraph o1 o2 o3 o4 (initState q) =
        runGraph o1 o2' o3' o4' (initState q) ∧
      (runGraph o1 o2 o3 o4 (initState q)).file_scores = [] ∧
      (runGraph o1 o2 o3 o4 (initState q)).evidence = [] ∧
      (runGraph o1 o2 o3 o4 (initState q)).reasoning_trace = "" ∧
      (runGraph o1 o2 o3 o4 (initState q)).final_answer = "") ∧
    (setsError (retrieval_planner_node o2 (stateAfter1 q o1)) = true →
      runGraph o1 o2 o3 o4 (initState q) =
        runGraph o1 o2 o3' o4' (initState q) ∧
      (runGraph o1 o2 o3 o4 (initState q)).evidence = [] ∧
      (runGraph o1 o2 o3 o4 (initState q)).reasoning_trace = "" ∧
      (runGraph o1 o2 o3 o4 (initState q)).final_answer = "") ∧
    (setsError (evidence_gatherer_node o3 (stateAfter2 q o1 o2)) = true →
      runGraph o1 o2 o3 o4 (initState q) =
        runGraph o1 o2 o3 o4' (initState q) ∧
      (runGraph o1 o2 o3 o4 (initState q)).reasoning_trace = "" ∧
      (runGraph o1 o2 o3 o4 (initState q)).final_answer = "") := by
  refine ⟨?_, ?_, ?_⟩
  · intro h
    cases o1 with
    | ok a => simp [setsError, query_analyzer_node] at h
    | error e =>
        rw [runGraph_err1, runGraph_err1]
        exact ⟨rfl, rfl, rfl, rfl, rfl⟩
  · intro h
    cases o2 with
    | ok hits => simp [setsError, retrieval_planner_node] at h
    | error e =>
        cases o1 with
        | ok a =>
            rw [runGraph_err2, runGraph_err2]
            exact ⟨rfl, rfl, rfl, rfl⟩
        | error e1 =>
            rw [runGraph_err1, runGraph_err1]
            exact ⟨rfl, rfl, rfl, rfl⟩
  · intro h
    cases o3 with
    | ok r => simp [setsError, evidence_gatherer_node] at h
    | error e =>
        cases o1 with
        | ok a =>
            cases o2 with
            | ok hits =>
                rw [runGraph_err3, runGraph_err3]
                exact ⟨rfl, rfl, rfl⟩
            | error e2 =>
                rw [runGraph_err2, runGraph_err2]
                exact ⟨rfl, rfl, rfl⟩
        | error e1 =>
            rw [runGraph_err1, runGraph_err1]
            exact ⟨rfl, rfl, rfl⟩

/-- C1 witness: with a failing analysis stage the terminal state ignores
the later oracles and keeps all downstream fields at their defaults; the
hypothesis (the stage-1 update sets `error`) is discharged concretely. -/
theorem c1_short_circuit_witness :
    runGraph (.error "boom") (.ok []) (.ok ⟨[], "o"⟩) (.ok "ans")
        (initState "q") =
      runGraph (.error "boom") (.error "x") (.error "y") (.error "z")
        (initState "q") ∧
    (runGraph (.error "boom") (.ok []) (.ok ⟨[], "o"⟩) (.ok "ans")
        (initState "q")).file_scores = [] ∧
    (runGraph (.error "boom") (.ok []) (.ok ⟨[], "o"⟩) (.ok "ans")
        (initState "q")).evidence = [] ∧
    (runGraph (.error "boom") (.ok []) (.ok ⟨[], "o"⟩) (.ok "ans")
        (initState "q")).reasoning_trace = "" ∧
    (runGraph (.error "boom") (.ok []) (.ok ⟨[], "o"⟩) (.ok "ans")
        (initState "q")).final_answer = "" := by
  exact (c1_short_circuit "q" (.error "boom") (.ok []) (.error "x")
    (.ok ⟨[], "o"⟩) (.error "y") (.ok "ans") (.error "z")).1 rfl

/-! ### C2: terminal answer/error exclusivity (corrected) -/

/-- C2 counterexample: with every stage succeeding but the synthesis LLM
returning the empty string, the terminal state has `final_answer = ""` and
`error = ""`, so "exactly one of final answer and error is non-empty" is
false on this run: neither is non-empty. -/
theorem c2_counterexample :
    ¬ (((runGraph (.ok ⟨[], [], [], false, ""⟩) (.ok []) (.ok ⟨[], "out"⟩)
          (.ok "") (initState "q")).final_answer ≠ "" ∧
        (runGraph (.ok ⟨[], [], [], false, ""⟩) (.ok []) (.ok ⟨[], "out"⟩)
          (.ok "") (initState "q")).error = "") ∨
       ((runGraph (.ok ⟨[], [], [], false, ""⟩) (.ok []) (.ok ⟨[], "out"⟩)
          (.ok "") (initState "q")).final_answer = "" ∧
        (runGraph (.ok ⟨[], [], [], false, ""⟩) (.ok []) (.ok ⟨[], "out"⟩)
          (.ok "") (initState "q")).error ≠ "")) := by
  rw [runGraph_ok]
  have hsplit : synthSplit "" =
      ("Direct synthesis without explicit reasoning trace", "") := rfl
  simp [hsplit, initState]

/-- C2 amended: at most one of `final_answer` and `error` is non-empty in
the terminal state — an aborted run has a non-empty `error` and an empty
`final_answer`, and a completed run has an empty `error` (its
`final_answer` may still be empty when the synthesis output splits to an
empty answer, which is what the counterexample exhibits). -/
theorem c2_exclusivity_amended (q : String)
    (o1 : Except String QueryAnalysis)
    (o2 : Except String (List (RawDoc × ℚ)))
    (o3 : Except String AgentResponse) (o4 : Except String String) :
    (¬ ((runGraph o1 o2 o3 o4 (initState q)).final_answer ≠ "" ∧
        (runGraph o1 o2 o3 o4 (initState q)).error ≠ "")) ∧
    ((setsError (query_analyzer_node o1 (initState q)) = true ∨
      setsError (retrieval_planner_node o2 (stateAfter1 q o1)) = true ∨
      setsError (evidence_gatherer_node o3 (stateAfter2 q o1 o2)) = true ∨
      setsError (synthesis_analyzer_node o4 (stateAfter3 q o1 o2 o3)) = true) →
      (runGraph o1 o2 o3 o4 (initState q)).error ≠ "" ∧
      (runGraph o1 o2 o3 o4 (initState q)).final_answer = "") ∧
    ((setsError (query_analyzer_node o1 (initState q)) = false ∧
      setsError (retrieval_planner_node o2 (stateAfter1 q o1)) = false ∧
      setsError (evidence_gatherer_node o3 (stateAfter2 q o1 o2)) = false ∧
      setsError (synthesis_analyzer_node o4 (stateAfter3 q o1 o2 o3)) = false) →
      (runGraph o1 o2 o3 o4 (initState q)).error = "") := by
  have h1 : ∀ e : String, ("Query analysis failed: " ++ e) ≠ "" :=
    fun e => str_append_ne_nil e (by decide)
  have h2 : ∀ e : String, ("File relevance scoring failed: " ++ e) ≠ "" :=
    fun e => str_append_ne_nil e (by decide)
  have h3 : ∀ e : String, ("Evidence gathering failed: " ++ e) ≠ "" :=
    fun e => str_append_ne_nil e (by decide)
  have h4 : ∀ e : String, ("Synthesis failed: " ++ e) ≠ "" :=
    fun e => str_append_ne_nil e (by decide)
  cases o1 with
  | error e1 =>
      rw [runGraph_err1]
      refine ⟨?_, fun _ => ⟨h1 e1, rfl⟩, ?_⟩
      · intro hc; exact hc.1 rfl
      · intro hall
        simp [setsError, query_analyzer_node] at hall
  | ok a =>
      cases o2 with
      | error e2 =>
          rw [runGraph_err2]
          refine ⟨?_, fun _ => ⟨h2 e2, rfl⟩, ?_⟩
          · intro hc; exact hc.1 rfl
          · intro hall
            simp [setsError, retrieval_planner_node] at hall
      | ok hits =>
          cases o3 with
          | error e3 =>
              rw [runGraph_err3]
              refine ⟨?_, fun _ => ⟨h3 e3, rfl⟩, ?_⟩
              · intro hc; exact hc.1 rfl
              · intro hall
                simp [setsError, evidence_gatherer_node] at hall
          | ok r =>
              cases o4 with
              | error e4 =>
                  rw [runGraph_err4]
                  refine ⟨?_, fun _ => ⟨h4 e4, rfl⟩, ?_⟩
                  · intro hc; exact hc.1 rfl
                  · intro hall
                    simp [setsError, synthesis_analyzer_node] at hall
              | ok out =>
                  rw [runGraph_ok]
                  refine ⟨?_, ?_, fun _ => rfl⟩
                  · intro hc; exact hc.2 rfl
                  · intro habort
                    rcases habort with h | h | h | h <;>
                      simp [setsError, query_analyzer_node,
                        retrieval_planner_node, evidence_gatherer_node,
                        synthesis_analyzer_node] at h

/-- C2 amended witness: a fully successful run with a non-trivial synthesis
output has an empty `error`, and a run whose first stage fails has a
non-empty `error` and an empty `final_answer`. -/
theorem c2_exclusivity_amended_witness :
    (runGraph (.ok ⟨[], [], [], false, ""⟩) (.ok []) (.ok ⟨[], "out"⟩)
      (.ok "hello") (initState "q")).error = "" ∧
    (runGraph (.error "down") (.ok []) (.ok ⟨[], "out"⟩) (.ok "hello")
      (initState "q")).error ≠ "" ∧
    (runGraph (.error "down") (.ok []) (.ok ⟨[], "out"⟩) (.ok "hello")
      (initState "q")).final_answer = "" := by
  refine ⟨?_, ?_, ?_⟩
  · exact (c2_exclusivity_amended "q" (.ok ⟨[], [], [], false, ""⟩)
      (.ok []) (.ok ⟨[], "out"⟩) (.ok "hello")).2.2 ⟨rfl, rfl, rfl, rfl⟩
  · exact ((c2_exclusivity_amended "q" (.error "down") (.ok [])
      (.ok ⟨[], "out"⟩) (.ok "hello")).2.1 (Or.inl rfl)).1
  · exact ((c2_exclusivity_amended "q" (.error "down") (.ok [])
      (.ok ⟨[], "out"⟩) (.ok "hello")).2.1 (Or.inl rfl)).2

/-! ### C3: relevance aggregation -/

theorem addScore_keys (acc : List (String × List ℚ)) (n : String) (sc : ℚ) :
    (addScore acc n sc).map Prod.fst =
      if n ∈ acc.map Prod.fst then acc.map Prod.fst
      else acc.map Prod.fst ++ [n] := by
  induction acc with
  | nil => simp [addScore]
  | cons p rest ih =>
      obtain ⟨f, ss⟩ := p
      by_cases hf : f = n
      · subst hf
        simp [addScore]
      · have hnf : ¬ (n = f) := fun hh => hf hh.symm
        by_cases hn : n ∈ rest.map Prod.fst
        · simp [addScore, hf, ih, hn, hnf]
        · simp [addScore, hf, ih, hn, hnf]

theorem mem_keys_addScore (acc : List (String × List ℚ)) (n : String)
    (sc : ℚ) (f : String) :
    f ∈ (addScore acc n sc).map Prod.fst ↔
      f ∈ acc.map Prod.fst ∨ f = n := by
  rw [addScore_keys]
  by_cases hn : n ∈ acc.map Prod.fst
  · rw [if_pos hn]
    constructor
    · exact Or.inl
    · rintro (h | rfl)
      · exact h
      · exact hn
  · rw [if_neg hn]
    simp

theorem lookupScores_addScore (acc : List (String × List ℚ)) (n : String)
    (sc : ℚ) (f : String) :
    lookupScores (addScore acc n sc) f =
      if n = f then lookupScores acc f ++ [sc]
      else lookupScores acc f := by
  induction acc with
  | nil =>
      by_cases h : n = f <;> simp [addScore, lookupScores, h]
  | cons p rest ih =>
      obtain ⟨g, tt⟩ := p
      by_cases hg : g = n
      · subst hg
        by_cases hf : g = f
        · subst hf
          simp [addScore, lookupScores]
        · have hnf : ¬ (g = f) := hf
          simp [addScore, lookupScores, hnf]
      · by_cases hf : g = f
        · subst hf
          have hnf : ¬ (n = g) := fun hh => hg hh.symm
          simp [addScore, hg, lookupScores, hnf]
        · simp [addScore, hg, lookupScores, hf, ih]

theorem foldl_lookupScores (cs : List Chunk) :
    ∀ (acc : List (String × List ℚ)) (f : String),
      lookupScores
        (cs.foldl (fun a c => addScore a c.source c.relevance_score) acc) f =
      lookupScores acc f ++
        (cs.filter (fun c => c.source = f)).map Chunk.relevance_score := by
  induction cs with
  | nil => intro acc f; simp
  | cons c cs ih =>
      intro acc f
      rw [List.foldl_cons, ih, lookupScores_addScore, List.filter_cons]
      by_cases h : c.source = f
      · simp [h]
      · simp [h]

theorem mem_keys_foldl (cs : List Chunk) :
    ∀ (acc : List (String × List ℚ)) (f : String),
      f ∈ (cs.foldl (fun a c => addScore a c.source c.relevance_score)
            acc).map Prod.fst ↔
      f ∈ acc.map Prod.fst ∨ f ∈ cs.map Chunk.source := by
  induction cs with
  | nil => intro acc f; simp
  | cons c cs ih =>
      intro acc f
      rw [List.foldl_cons, ih, mem_keys_addScore]
      simp only [List.map_cons, List.mem_cons]
      tauto

theorem keys_nodup_foldl (cs : List Chunk) :
    ∀ (acc : List (String × List ℚ)), (acc.map Prod.fst).Nodup →
      ((cs.foldl (fun a c => addScore a c.source c.relevance_score)
          acc).map Prod.fst).Nodup := by
  induction cs with
  | nil => intro acc h; simpa using h
  | cons c cs ih =>
      intro acc h
      rw [List.foldl_cons]
      apply ih
      rw [addScore_keys]
      by_cases hn : c.source ∈ acc.map Prod.fst
      · simpa [hn] using h
      · rw [if_neg hn]
        simp [List.nodup_append, h, hn]

theorem lookupScores_of_mem :
    ∀ (l : List (String × List ℚ)), (l.map Prod.fst).Nodup →
      ∀ f ss, (f, ss) ∈ l → lookupScores l f = ss := by
  intro l
  induction l with
  | nil => intro _ f ss h; cases h
  | cons p rest ih =>
      intro hnd f ss hmem
      obtain ⟨g, tt⟩ := p
      rw [List.map_cons] at hnd
      have hnd' := List.nodup_cons.mp hnd
      rcases List.mem_cons.mp hmem with heq | hrest
      · cases heq
        simp [lookupScores]
      · by_cases hg : g = f
        · subst hg
          exfalso
          exact hnd'.1 (List.mem_map.mpr ⟨(g, ss), hrest, rfl⟩)
        · simpa [lookupScores, hg] using ih hnd'.2 f ss hrest

/-- C3: for any set of retrieved chunks, `get_file_relevance_scores`
returns a mapping sorted ascending by score, whose keys (each appearing
once) are exactly the sources contributing at least one retrieved chunk,
and whose value at each key is the arithmetic mean of that source's
retrieved-chunk scores. -/
theorem c3_relevance_aggregation (chunks : List Chunk) :
    ((get_file_relevance_scores chunks).Pairwise (fun a b => a.2 ≤ b.2)) ∧
    ((get_file_relevance_scores chunks).map Prod.fst).Nodup ∧
    (∀ f, f ∈ (get_file_relevance_scores chunks).map Prod.fst ↔
      f ∈ chunks.map Chunk.source) ∧
    (∀ p, p ∈ get_file_relevance_scores chunks →
      p.2 = ((chunks.filter (fun c => c.source = p.1)).map
          Chunk.relevance_score).sum /
        (((chunks.filter (fun c => c.source = p.1)).map
          Chunk.relevance_score).length : ℚ)) := by
  have hkeysmap : ((groupScores chunks).map
        (fun p => (p.1, p.2.sum / (p.2.length : ℚ)))).map Prod.fst =
      (groupScores chunks).map Prod.fst := by
    rw [List.map_map]
    rfl
  have hperm := List.mergeSort_perm ((groupScores chunks).map
      (fun p => (p.1, p.2.sum / (p.2.length : ℚ))))
    (fun a b => decide (a.2 ≤ b.2))
  have hpermfst := hperm.map Prod.fst
  have hnodup : ((groupScores chunks).map Prod.fst).Nodup :=
    keys_nodup_foldl chunks [] (by simp)
  refine ⟨?_, ?_, ?_, ?_⟩
  · have hs := @List.sorted_mergeSort (String × ℚ)
      (fun a b => decide (a.2 ≤ b.2))
      (fun a b c hab hbc => by
        simp only [decide_eq_true_eq] at hab hbc ⊢
        exact le_trans hab hbc)
      (fun a b => by
        rcases le_total a.2 b.2 with h | h <;> simp [h])
      ((groupScores chunks).map (fun p => (p.1, p.2.sum / (p.2.length : ℚ))))
    exact hs.imp (fun h => by simpa using h)
  · rw [get_file_relevance_scores, hpermfst.nodup_iff, hkeysmap]
    exact hnodup
  · intro f
    rw [get_file_relevance_scores, hpermfst.mem_iff, hkeysmap]
    have := mem_keys_foldl chunks [] f
    rw [groupScores]
    simpa using this
  · intro p hp
    have hmem : p ∈ (groupScores chunks).map
        (fun p => (p.1, p.2.sum / (p.2.length : ℚ))) :=
      List.mem_mergeSort.mp hp
    obtain ⟨q, hq, rfl⟩ := List.mem_map.mp hmem
    have hlook : lookupScores (groupScores chunks) q.1 = q.2 :=
      lookupScores_of_mem (groupScores chunks) hnodup q.1 q.2
        (by simpa using hq)
    have hfilter : lookupScores (groupScores chunks) q.1 =
        (chunks.filter (fun c => c.source = q.1)).map
          Chunk.relevance_score := by
      rw [groupScores, foldl_lookupScores]
      simp [lookupScores]
    rw [← hlook, hfilter]

/-- C3 witness: two chunks from the same document with scores 1 and 2 give
the mapping `[("a.txt", 3/2)]`: the key set is exactly the contributing
document, the value is the mean, and the singleton is trivially sorted. -/
theorem c3_relevance_aggregation_witness :
    ("a.txt" ∈ (get_file_relevance_scores
        [⟨"c1", "a.txt", 1⟩, ⟨"c2", "a.txt", 2⟩]).map Prod.fst ↔
      "a.txt" ∈ ([⟨"c1", "a.txt", 1⟩, ⟨"c2", "a.txt", 2⟩] :
        List Chunk).map Chunk.source) ∧
    ((3 : ℚ)/2 = ((([⟨"c1", "a.txt", 1⟩, ⟨"c2", "a.txt", 2⟩] :
        List Chunk).filter (fun c => c.source = "a.txt")).map
          Chunk.relevance_score).sum /
      (((([⟨"c1", "a.txt", 1⟩, ⟨"c2", "a.txt", 2⟩] :
        List Chunk).filter (fun c => c.source = "a.txt")).map
          Chunk.relevance_score).length : ℚ)) := by
  have h := c3_relevance_aggregation [⟨"c1", "a.txt", 1⟩, ⟨"c2", "a.txt", 2⟩]
  refine ⟨h.2.2.1 "a.txt", ?_⟩
  have hres : get_file_relevance_scores
      [⟨"c1", "a.txt", 1⟩, ⟨"c2", "a.txt", 2⟩] = [("a.txt", 3/2)] := by
    have hgroup : groupScores [⟨"c1", "a.txt", 1⟩, ⟨"c2", "a.txt", 2⟩] =
        [("a.txt", [1, 2])] := by
      simp [groupScores, addScore]
    rw [get_file_relevance_scores, hgroup]
    norm_num
  exact h.2.2.2 ("a.txt", 3/2) (by rw [hres]; simp)

/-! ### C9: supervisor sanitization and routing -/

theorem intercalate_nil_sep (parts : List (List Char)) :
    List.intercalate ([] : List Char) parts = parts.flatten := by
  induction parts with
  | nil => rfl
  | cons a rest ih =>
      cases rest with
      | nil => simp [List.intercalate, List.intersperse]
      | cons b rest' =>
          have hstep : List.intersperse ([] : List Char) (a :: b :: rest') =
              a :: [] :: List.intersperse [] (b :: rest') := rfl
          simp only [List.intercalate] at ih ⊢
          rw [hstep]
          simp only [List.flatten_cons, List.nil_append]
          rw [ih]
          simp [List.flatten_cons]

theorem firstIdx_singleton_cons (c d : Char) (rest : List Char) :
    firstIdx [c] (d :: rest) =
      if d = c then some 0 else (firstIdx [c] rest).map (· + 1) := by
  have hpre : [c].isPrefixOf (d :: rest) = (c == d) := by
    simp [List.isPrefixOf]
  rw [firstIdx, hpre]
  by_cases h : d = c
  · simp [h]
  · have : ¬ (c = d) := fun hh => h hh.symm
    simp [h, this]

theorem pyReplace_single_cons (c d : Char) (rest : List Char) :
    pyReplace [c] [] (d :: rest) =
      if d = c then pyReplace [c] [] rest
      else d :: pyReplace [c] [] rest := by
  have hne : ([c] : List Char) ≠ [] := by simp
  by_cases hd : d = c
  · have hidx : firstIdx [c] (d :: rest) = some 0 := by
      rw [firstIdx_singleton_cons, if_pos hd]
    rw [if_pos hd, pyReplace, pySplit_of_some hne hidx]
    simp [intercalate_nil_sep, pyReplace]
  · rw [if_neg hd]
    cases hr : firstIdx [c] rest with
    | none =>
        have hidx : firstIdx [c] (d :: rest) = none := by
          rw [firstIdx_singleton_cons, if_neg hd, hr]; rfl
        rw [pyReplace, pyReplace, pySplit_of_none hne hidx,
          pySplit_of_none hne hr]
        simp [intercalate_nil_sep]
    | some j =>
        have hidx : firstIdx [c] (d :: rest) = some (j + 1) := by
          rw [firstIdx_singleton_cons, if_neg hd, hr]; rfl
        rw [pyReplace, pyReplace, pySplit_of_some hne hidx,
          pySplit_of_some hne hr]
        simp [intercalate_nil_sep]

theorem pyReplace_single_eq_filter (c : Char) (s : List Char) :
    pyReplace [c] [] s = s.filter (fun d => !(d = c)) := by
  induction s with
  | nil =>
      rw [pyReplace, pySplit_of_none (by simp : ([c] : List Char) ≠ [])
        (firstIdx_nil_of_ne [c] (by simp))]
      rfl
  | cons d rest ih =>
      rw [pyReplace_single_cons, List.filter_cons]
      by_cases hd : d = c
      · simp [hd, ih]
      · simp [hd, ih]

/-- C9: the supervisor's chosen persona string is sanitized by trimming
surrounding whitespace first and then deleting every apostrophe, double
quote and backtick (`Char.ofNat 39/34/96`), and the sanitized key routes
to an agent only when it is in the fixed closed persona set — an
unrecognized identifier is a routing failure (`none`), never a default
agent. -/
theorem c9_supervisor_sanitize_route (o : List Char) :
    supervisor_node o =
      (((pyStrip o).filter (fun c => !(c = Char.ofNat 39))).filter
        (fun c => !(c = Char.ofNat 34))).filter
          (fun c => !(c = Char.ofNat 96)) ∧
    (∀ c, c ∈ supervisor_node o →
      c ≠ Char.ofNat 39 ∧ c ≠ Char.ofNat 34 ∧ c ≠ Char.ofNat 96) ∧
    (supervisor_node o ∉ personaSet →
      routeAgent (supervisor_node o) = none) ∧
    (supervisor_node o ∈ personaSet →
      routeAgent (supervisor_node o) = some (supervisor_node o)) := by
  have hval : supervisor_node o =
      (((pyStrip o).filter (fun c => !(c = Char.ofNat 39))).filter
        (fun c => !(c = Char.ofNat 34))).filter
          (fun c => !(c = Char.ofNat 96)) := by
    rw [supervisor_node, sanitizeKey, pyReplace_single_eq_filter,
      pyReplace_single_eq_filter, pyReplace_single_eq_filter]
  refine ⟨hval, ?_, ?_, ?_⟩
  · intro c hc
    rw [hval] at hc
    have h96 := (List.mem_filter.mp hc).2
    have hc' := (List.mem_filter.mp hc).1
    have h34 := (List.mem_filter.mp hc').2
    have hc'' := (List.mem_filter.mp hc').1
    have h39 := (List.mem_filter.mp hc'').2
    simp only [Bool.not_eq_true', decide_eq_false_iff_not] at h96 h34 h39
    exact ⟨h39, h34, h96⟩
  · intro h
    rw [routeAgent, if_neg h]
  · intro h
    rw [routeAgent, if_pos h]

/-- C9 witness: a quoted, padded `financial` sanitizes to the persona key
and routes to it; an identifier outside the closed set routes to `none`. -/
theorem c9_supervisor_sanitize_route_witness :
    routeAgent (supervisor_node
      (" ".data ++ [Char.ofNat 39] ++ "financial".data ++ [Char.ofNat 39] ++
        " ".data)) = some ("financial".data) ∧
    routeAgent (supervisor_node "unknown_agent ".data) = none := by
  constructor
  · have h := c9_supervisor_sanitize_route
      (" ".data ++ [Char.ofNat 39] ++ "financial".data ++ [Char.ofNat 39] ++
        " ".data)
    have hval : supervisor_node
        (" ".data ++ [Char.ofNat 39] ++ "financial".data ++
          [Char.ofNat 39] ++ " ".data) = "financial".data := by
      rw [h.1]; decide
    rw [hval] at h ⊢
    exact h.2.2.2 (by decide)
  · have h := c9_supervisor_sanitize_route "unknown_agent ".data
    have hval : supervisor_node "unknown_agent ".data =
        "unknown_agent".data := by
      rw [h.1]; decide
    rw [hval] at h ⊢
    exact h.2.2.1 (by decide)

/-! ### C10: synthesis output splitting (corrected) -/

theorem synthSplit_eq_spec (out : List Char) :
    synthSplitL out = specSynthSplit out := by
  rw [synthSplitL, specSynthSplit]
  by_cases hg : (containsSub rMarker out && containsSub aMarker out) = true
  · rw [if_pos hg, if_pos hg]
    have hpair : containsSub rMarker out = true ∧
        containsSub aMarker out = true := by simpa using hg
    have haM := hpair.2
    obtain ⟨i, hi⟩ : ∃ i, firstIdx aMarker out = some i := by
      cases h : firstIdx aMarker out with
      | none => rw [containsSub, h] at haM; simp at haM
      | some i => exact ⟨i, rfl⟩
    have haNe : aMarker ≠ [] := by decide
    rw [hi, pySplit_of_some haNe hi]
    cases hj : firstIdx aMarker (out.drop (i + aMarker.length)) with
    | none => rw [pySplit_of_none haNe hj]; simp [hj]
    | some j => rw [pySplit_of_some haNe hj]; simp [hj]
  · rw [if_neg hg, if_neg hg]

/-- C10 counterexample: on the synthesis output
`"**REASONING:** r **ANSWER:** a **ANSWER:** b"` the code's final answer is
`"a"` (the trimmed text between the first and second `**ANSWER:**`), not
the trimmed text after the first `**ANSWER:**`, which is
`"a **ANSWER:** b"`; the claim's description of `final_answer` is false at
this input. -/
theorem c10_synthesis_split_counterexample :
    (synthSplitL "**REASONING:** r **ANSWER:** a **ANSWER:** b".data).2 =
      "a".data ∧
    pyStrip (textAfterFirst aMarker
      "**REASONING:** r **ANSWER:** a **ANSWER:** b".data) =
      "a **ANSWER:** b".data ∧
    (synthSplitL "**REASONING:** r **ANSWER:** a **ANSWER:** b".data).2 ≠
      pyStrip (textAfterFirst aMarker
        "**REASONING:** r **ANSWER:** a **ANSWER:** b".data) := by
  rw [synthSplit_eq_spec]
  refine ⟨?_, ?_, ?_⟩ <;> decide

/-- C10 amended: on a successful synthesis the node's `reasoning_trace` and
`final_answer` follow `specSynthSplit`: when both markers occur,
`final_answer` is the trimmed text strictly between the first `**ANSWER:**`
and the next occurrence of that marker (to the end when there is none) and
`reasoning_trace` is the trimmed text before the first `**ANSWER:**` with
the `**REASONING:**` marker occurrences removed; otherwise the raw output
and the fixed no-trace message. -/
theorem c10_synthesis_split_amended (out : String) (s : GraphState) :
    (synthesis_analyzer_node (.ok out) s).reasoning_trace =
      some ⟨(specSynthSplit out.data).1⟩ ∧
    (synthesis_analyzer_node (.ok out) s).final_answer =
      some ⟨(specSynthSplit out.data).2⟩ := by
  constructor
  · simp [synthesis_analyzer_node, synthSplit, synthSplit_eq_spec]
  · simp [synthesis_analyzer_node, synthSplit, synthSplit_eq_spec]

end AgenticRAG
